import Mathlib

/-!
Shallow embedding of the wbrefvem/go-gits credential store, credential
resolver and the backend adapters' retry / validation / status logic,
with theorems checking the natural-language specification against it.

Go machine state is modelled by explicit value passing: a Go method that
mutates a struct through a pointer becomes a Lean function returning the
updated value.  Go's `(T, error)` returns become `Except String T` or
`Option` values; `os.Getenv` becomes an explicit `String → String`
environment; vendor HTTP calls become explicit oracles (`Nat → _` for
the n-th call of a retry loop, page-keyed functions for pagination).
-/

/- ### Credential store data model (src/unnamed/part_000, package auth) -/

/-- `UserAuth` (part_000:26-30). -/
structure UserAuth where
  Username : String
  ApiToken : String
  BearerToken : String
  deriving Repr, DecidableEq

/-- `AuthServer` (part_000:17-24). -/
structure AuthServer where
  URL : String
  Users : List UserAuth
  Name : String
  Kind : String
  CurrentUser : String
  deriving Repr, DecidableEq

/-- `AuthConfig` (part_000:32-37); the `PipeLine` fields are the two extra
fields referenced by `GenericAuthConfigService.SaveUserAuth`
(src/pkg/auth/auth_config_service.go:26-29), whose declaring file is not in
the snapshot. -/
structure AuthConfig where
  Servers : List AuthServer
  DefaultUsername : String
  CurrentServer : String
  PipeLineUsername : String
  PipeLineServer : String
  deriving Repr, DecidableEq

/-- `UserAuth.IsInvalid` (part_000:177-179). -/
def UserAuth.IsInvalid (a : UserAuth) : Bool :=
  a.BearerToken = "" && (a.ApiToken = "" || a.Username = "")

/-- `AuthConfig.FindUserAuths` (part_000:53-60): users of the first server
whose URL matches, else the empty list. -/
def AuthConfig.FindUserAuths (c : AuthConfig) (serverURL : String) : List UserAuth :=
  match c.Servers.find? (fun s => s.URL = serverURL) with
  | some server => server.Users
  | none => []

/-- `AuthConfig.FindUserAuth` (part_000:80-95). -/
def AuthConfig.FindUserAuth (c : AuthConfig) (serverURL username : String) : Option UserAuth :=
  let auths := c.FindUserAuths serverURL
  if username = "" then
    match auths with
    | [a] => some a
    | _ => none
  else
    auths.find? (fun a => a.Username = username)

/-- Inner loop of `AuthConfig.SetUserAuth` (part_000:106-113): replace the
first entry with the same `Username` in place, else append. -/
def upsertUser : List UserAuth → UserAuth → List UserAuth
  | [], auth => [auth]
  | a :: as, auth =>
    if a.Username = auth.Username then auth :: as else a :: upsertUser as auth

/-- Outer loop of `AuthConfig.SetUserAuth` (part_000:102-123): update the
first server whose URL matches (setting `CurrentUser`), else append a new
server record. -/
def setUserAuthServers : List AuthServer → String → UserAuth → List AuthServer
  | [], url, auth =>
    [{ URL := url, Users := [auth], Name := "", Kind := "", CurrentUser := auth.Username }]
  | s :: ss, url, auth =>
    if s.URL = url then
      { s with Users := upsertUser s.Users auth, CurrentUser := auth.Username } :: ss
    else
      s :: setUserAuthServers ss url auth

/-- `AuthConfig.SetUserAuth` (part_000:102-123). -/
def AuthConfig.SetUserAuth (c : AuthConfig) (url : String) (auth : UserAuth) : AuthConfig :=
  { c with Servers := setUserAuthServers c.Servers url auth }

/-- `AuthConfig.GetServer` (part_000:181-190).  The Go function returns
`&s` where `s` is the `range` loop variable — a pointer to a *copy* of the
slice element, so writes through the returned pointer never reach
`c.Servers`; the embedding therefore returns the server by value. -/
def AuthConfig.GetServer (c : AuthConfig) (url : String) : Option AuthServer :=
  c.Servers.find? (fun s => s.URL = url)

/-- `AuthConfig.GetOrCreateServerName` (part_000:202-217).  Returns the
server value handed back to the caller together with the updated config.
In Go the returned pointer aliases a copy (the `range` copy from
`GetServer`, or a heap object of which a copy was appended via
`append(c.Servers, *s)`), so subsequent writes through it do not change
the stored record. -/
def AuthConfig.GetOrCreateServerName (c : AuthConfig) (url name kind : String) :
    AuthServer × AuthConfig :=
  match c.GetServer url with
  | some s => (s, c)
  | none =>
    let s : AuthServer := { URL := url, Users := [], Name := name, Kind := kind, CurrentUser := "" }
    (s, { c with Servers := c.Servers ++ [s] })

/-- `AuthConfig.GetOrCreateServer` (part_000:192-200). -/
def AuthConfig.GetOrCreateServer (c : AuthConfig) (url : String) : AuthServer × AuthConfig :=
  let name := if url = "github.com" then "GitHub" else ""
  let kind := if url = "github.com" then "github" else ""
  c.GetOrCreateServerName url name kind

/-- `CreateAuthUserFromEnvironment` (part_000:169-175); `env` models
`os.Getenv`. -/
def CreateAuthUserFromEnvironment (env : String → String) (pfx : String) : UserAuth :=
  { Username := env (pfx ++ "_USERNAME")
    ApiToken := env (pfx ++ "_API_TOKEN")
    BearerToken := env (pfx ++ "_BEARER_TOKEN") }

/-- Config-mutation part of `GenericAuthConfigService.SaveUserAuth`
(src/pkg/auth/auth_config_service.go:17-33); the trailing
`saver.SaveConfig` performs persistence only and does not change the
in-memory config. -/
def SaveUserAuth (c : AuthConfig) (url : String) (userAuth : UserAuth) : AuthConfig :=
  let c := c.SetUserAuth url userAuth
  let user := userAuth.Username
  let c := if user ≠ "" then { c with DefaultUsername := user } else c
  -- Set Pipeline user once only.
  let c :=
    if c.PipeLineUsername = "" then
      { c with PipeLineUsername := user, PipeLineServer := url }
    else c
  { c with CurrentServer := url }

/- ### Credential resolver (src/pkg/gits/provider.go) -/

/-- `strings.ToUpper`, modelled character-wise. -/
def stringToUpper (s : String) : String := ⟨s.data.map Char.toUpper⟩

/-- Which branch of `CreateProviderForURL` produced the provider: the
three `CreateProvider(...)` call sites (env-by-kind at provider.go:356-359,
env-by-GIT at provider.go:361-364, first stored user at provider.go:366-370)
and the `createUserForServer` interactive fallback (provider.go:371-375).
The server and credential carried are the arguments of that call. -/
inductive ProviderResolution where
  | fromEnvKind (server : AuthServer) (userAuth : UserAuth)
  | fromEnvGit (server : AuthServer) (userAuth : UserAuth)
  | fromStored (server : AuthServer) (userAuth : UserAuth)
  | interactivePrompt (server : AuthServer)
  deriving Repr, DecidableEq

/-- `CreateProviderForURL` (src/pkg/gits/provider.go:345-376), up to the
choice of credential.  Returns the resolution outcome and the
config as stored afterwards.  `server.Kind = gitKind` (provider.go:350-352)
writes through the pointer returned by `GetOrCreateServer`, which in
part_000 aliases a copy of the stored record, so the write is applied to
the local `server` value only and the stored config keeps its old Kind. -/
def CreateProviderForURL (c : AuthConfig) (env : String → String)
    (gitKind hostUrl : String) : ProviderResolution × AuthConfig :=
  let (server0, c1) := c.GetOrCreateServer hostUrl
  let url := server0.URL
  let server := if gitKind ≠ "" then { server0 with Kind := gitKind } else server0
  match c1.FindUserAuths url with
  | [] =>
    let kind := server.Kind
    let fromGit : ProviderResolution :=
      let userAuth := CreateAuthUserFromEnvironment env "GIT"
      if ¬ userAuth.IsInvalid then .fromEnvGit server userAuth
      else .interactivePrompt server
    if kind ≠ "" then
      let userAuth := CreateAuthUserFromEnvironment env (stringToUpper kind)
      if ¬ userAuth.IsInvalid then (.fromEnvKind server userAuth, c1)
      else (fromGit, c1)
    else (fromGit, c1)
  | auth :: _ => (.fromStored server auth, c1)

/- ### Organisation listing (src/pkg/gits/provider.go:231-244 and the
identical src/pkg/git/provider.go:220-233) -/

/-- `GitOrganisation` (src/pkg/gits/provider.go:17-19). -/
structure GitOrganisation where
  Login : String
  deriving Repr, DecidableEq

/-- `GetOrganizations` (src/pkg/gits/provider.go:231-244).  `listResult`
is the pair returned by `orgLister.ListOrganisations()`; the Go code
discards its error component (`orgs, _ := ...`). -/
def GetOrganizations (listResult : List GitOrganisation × Option String)
    (userName : String) : List String :=
  -- Always include the username as a pseudo organization
  let orgNames := [userName]
  let orgNames := listResult.1.foldl
    (fun acc o => if o.Login ≠ "" then acc ++ [o.Login] else acc) orgNames
  List.insertionSort (· ≤ ·) orgNames

/- ### Canonical repository / pull-request records -/

/-- `git.Repository` as constructed by the bitbucket adapters
(fields of `GitRepository`, src/pkg/gits/provider.go:21-29). -/
structure GitRepository where
  Name : String
  AllowMergeCommit : Bool
  HTMLURL : String
  CloneURL : String
  SSHURL : String
  Language : String
  Fork : Bool
  Stars : Nat
  deriving Repr, DecidableEq

/-- A `{name, href}` link as found in bitbucket `Links.Clone` lists. -/
structure BitbucketLink where
  Name : String
  Href : String
  deriving Repr, DecidableEq

/-- An `{href}` link (`Links.Html`, `Links.Self` entries). -/
structure HrefLink where
  Href : String
  deriving Repr, DecidableEq

/-- The `Links` of a Bitbucket Cloud repository used by
`BitbucketRepositoryToGitRepository` (picker.go:121-145). -/
structure BitbucketCloudLinks where
  Clone : List BitbucketLink
  Html : HrefLink
  deriving Repr, DecidableEq

/-- The fields of `bitbucket.Repository` (Bitbucket Cloud) read by
`BitbucketRepositoryToGitRepository`; `Parent` is only tested for nil. -/
structure BitbucketCloudRepository where
  Name : String
  Links : BitbucketCloudLinks
  Parent : Option Unit
  Language : String
  deriving Repr, DecidableEq

/-- `BitbucketRepositoryToGitRepository` (picker.go:118-146).  The Go
loops keep the *last* matching link, hence the folds; `httpCloneURL` is
never assigned before the first `if`, so that branch always runs. -/
def BitbucketRepositoryToGitRepository (bRepo : BitbucketCloudRepository) : GitRepository :=
  let sshURL := bRepo.Links.Clone.foldl
    (fun acc link => if link.Name = "ssh" then link.Href else acc) ""
  let isFork := bRepo.Parent.isSome
  let httpCloneURL : String := ""
  let httpCloneURL :=
    if httpCloneURL = "" then
      let u := bRepo.Links.Html.Href
      if ¬ u.endsWith ".git" then u ++ ".git" else u
    else httpCloneURL
  let httpCloneURL := if httpCloneURL = "" then sshURL else httpCloneURL
  { Name := bRepo.Name, HTMLURL := bRepo.Links.Html.Href, CloneURL := httpCloneURL,
    SSHURL := sshURL, Language := bRepo.Language, Fork := isFork,
    AllowMergeCommit := false, Stars := 0 }

/-- The `Links` of a `bitbucket.Repository` (Bitbucket Server) used by
`BitbucketServerRepositoryToGitRepository` (bitbucket_server.go:87-120). -/
structure BitbucketServerRepoLinks where
  Clone : List BitbucketLink
  Self : List HrefLink
  deriving Repr, DecidableEq

/-- Fields of a Bitbucket Server `bitbucket.Repository` read by the
translation. -/
structure BitbucketServerRepository where
  Name : String
  Links : BitbucketServerRepoLinks
  deriving Repr, DecidableEq

/-- `BitbucketServerRepositoryToGitRepository` (bitbucket_server.go:87-120).
`isFork` is hard-coded `false` there; `Links.Self[0]` panics in Go on an
empty list, modelled with an empty-href default. -/
def BitbucketServerRepositoryToGitRepository (bRepo : BitbucketServerRepository) :
    GitRepository :=
  let sshURL := bRepo.Links.Clone.foldl
    (fun acc link => if link.Name = "ssh" then link.Href else acc) ""
  let isFork := false
  let httpCloneURL : String := ""
  let httpCloneURL :=
    if httpCloneURL = "" then
      bRepo.Links.Clone.foldl
        (fun acc link =>
          if link.Name = "http" then
            let u := link.Href
            if ¬ u.endsWith ".git" then u ++ ".git" else u
          else acc) ""
    else httpCloneURL
  let httpCloneURL := if httpCloneURL = "" then sshURL else httpCloneURL
  { Name := bRepo.Name, HTMLURL := (bRepo.Links.Self.headD ⟨""⟩).Href,
    CloneURL := httpCloneURL, SSHURL := sshURL, Language := "", Fork := isFork,
    AllowMergeCommit := false, Stars := 0 }

/- ### Eventual-consistency retry loops (C1) -/

/-- Read-and-sleep counts of a retry loop.  Every sleep is the fixed
`time.Sleep(2 * time.Second)` of the source, so `sleeps` × 2 s is the
total wait. -/
structure RetryTrace where
  readCalls : Nat
  sleeps : Nat
  deriving Repr, DecidableEq

/-- The Bitbucket Cloud wait loop (picker.go:266-280):
`for i := 0; i < 30; i++ { read; if ok break; sleep(2s) }`.
`reads n` is whether the n-th read-back attempt returns no error;
the Bool result is the final error status (`true` = err == nil). -/
def cloudRetryLoop (reads : Nat → Bool) : Nat → Nat → Bool × RetryTrace
  | _, 0 => (false, ⟨0, 0⟩)
  | next, fuel + 1 =>
    if reads next then (true, ⟨1, 0⟩)
    else
      let (ok, t) := cloudRetryLoop reads (next + 1) fuel
      (ok, ⟨t.readCalls + 1, t.sleeps + 1⟩)

/-- `CloudProvider.ForkRepository` (picker.go:239-284).  `createResult`
is the forks-POST result; `reads n` tells whether the n-th
forks-GET read-back succeeds (n = 0 is the probe before the wait loop).
The source returns `BitbucketRepositoryToGitRepository(repo), nil`
unconditionally after the loop: the read-back error is swallowed and the
POST result is returned untouched. -/
def CloudProvider.ForkRepository (createResult : Except String BitbucketCloudRepository)
    (reads : Nat → Bool) : Except String GitRepository × RetryTrace :=
  match createResult with
  | .error e => (.error e, ⟨0, 0⟩)
  | .ok repo =>
    let t : RetryTrace :=
      if reads 0 then ⟨1, 0⟩
      else
        let (_, t) := cloudRetryLoop reads 1 30
        ⟨t.readCalls + 1, t.sleeps⟩
    (.ok (BitbucketRepositoryToGitRepository repo), t)

/-- The Bitbucket Server wait loop (bitbucket_server.go:292-302 and
361-369): `for i := 0; i < 30; i++ { sleep(2s); read; if ok break }`.
After the loop the last read's result stands.  The fuel-0 case is never
reached from the adapters (they pass 30). -/
def serverRetryLoop {α : Type} (reads : Nat → Except String α) :
    Nat → Nat → Except String α × RetryTrace
  | _, 0 => (.error "", ⟨0, 0⟩)
  | next, 1 => (reads next, ⟨1, 1⟩)
  | next, fuel + 2 =>
    match reads next with
    | .ok v => (.ok v, ⟨1, 1⟩)
    | .error _ =>
      let (r, t) := serverRetryLoop reads (next + 1) (fuel + 1)
      (r, ⟨t.readCalls + 1, t.sleeps + 1⟩)

/-- `BitbucketServerProvider.ForkRepository` (bitbucket_server.go:271-316).
The fork-POST response body is discarded (`_, err = ...`), so
`postResult` carries no payload; `reads n` is the n-th
GetRepository/GetUserRepository read-back, already mapstructure-decoded.
When the loop exhausts, the source returns `nil, err`: the final read
error, not a create result. -/
def BitbucketServerProvider.ForkRepository (postResult : Except String Unit)
    (reads : Nat → Except String BitbucketServerRepository) :
    Except String GitRepository × RetryTrace :=
  match postResult with
  | .error e => (.error e, ⟨0, 0⟩)
  | .ok _ =>
    let (r, t) := serverRetryLoop reads 0 30
    match r with
    | .error e => (.error e, t)
    | .ok resp => (.ok (BitbucketServerRepositoryToGitRepository resp), t)

/-- `GitUser` (src/pkg/gits/provider.go:82-88). -/
structure GitUser where
  URL : String := ""
  Login : String := ""
  Name : String := ""
  Email : String := ""
  AvatarURL : String := ""
  deriving Repr, DecidableEq

/-- `GitPullRequest` (src/pkg/gits/provider.go:31-50); `time.Time` fields
are modelled as instants (`Nat`).  Unset fields of a Go struct literal
keep their zero value, hence the defaults. -/
structure GitPullRequest where
  URL : String := ""
  Author : Option GitUser := none
  Owner : String := ""
  Repo : String := ""
  Number : Option Int := none
  Mergeable : Option Bool := none
  Merged : Option Bool := none
  HeadRef : Option String := none
  State : Option String := none
  StatusesURL : Option String := none
  IssueURL : Option String := none
  DiffURL : Option String := none
  MergeCommitSHA : Option String := none
  ClosedAt : Option Nat := none
  MergedAt : Option Nat := none
  LastCommitSha : String := ""
  Title : String := ""
  Body : String := ""
  deriving Repr, DecidableEq

/-- Fields of a Bitbucket Server `bitbucket.PullRequest` read by
`BitbucketServerProvider.CreatePullRequest` (bitbucket_server.go:371-385):
`ID`, `State`, `Links.Self[0].Href`, `Author.User.Name`,
`ToRef.Repository.Name`. -/
structure BitbucketServerPullRequest where
  ID : Int
  State : String
  SelfLinks : List HrefLink
  AuthorUserName : String
  ToRefRepositoryName : String
  deriving Repr, DecidableEq

/-- `BitbucketServerProvider.CreatePullRequest` (bitbucket_server.go:318-386).
`createResult` is the CreatePullRequestWithOptions response decoded into
`bPullRequest` (its ID drives the read-backs); `reads n` is the n-th
GetPullRequest read-back, decoded into `bPR`.  On loop exhaustion the
source returns `nil, err`; on success it builds the canonical PR from the
read-back `bPR`, not from the create response. -/
def BitbucketServerProvider.CreatePullRequest
    (createResult : Except String BitbucketServerPullRequest)
    (reads : Nat → Except String BitbucketServerPullRequest) :
    Except String GitPullRequest × RetryTrace :=
  match createResult with
  | .error e => (.error e, ⟨0, 0⟩)
  | .ok _bPullRequest =>
    let (r, t) := serverRetryLoop reads 0 30
    match r with
    | .error e => (.error e, t)
    | .ok bPR =>
      (.ok { URL := (bPR.SelfLinks.headD ⟨""⟩).Href
             Owner := bPR.AuthorUserName
             Repo := bPR.ToRefRepositoryName
             Number := some bPR.ID
             State := some bPR.State }, t)

/- ### Repository-name validation (C7) -/

/-- `GitRepoName` as used in the GitHub adapter's message
(part_001: `GitRepoName(org, name)` = "org/name"). -/
def GitRepoName (org name : String) : String := org ++ "/" ++ name

/-- `GitHubProvider.ValidateRepositoryName` (part_001:189-198).
`fetchResult` is the `Repositories.Get` error status, `statusCode` the
HTTP status of its response.  Returns `none` for "name available",
`some msg` for an error. -/
def GitHubProvider.ValidateRepositoryName (org name : String)
    (fetchResult : Except String Unit) (statusCode : Nat) : Option String :=
  match fetchResult with
  | .ok _ => some ("Repository " ++ GitRepoName org name ++ " already exists")
  | .error e => if statusCode = 404 then none else some e

/-- A GitLab project row as consumed by `projectId` (part_002:792-804):
only `Name` and `ID` are read. -/
structure GitlabProject where
  Name : String
  ID : Int
  deriving Repr, DecidableEq

/-- `GitlabProvider.projectId` (part_002:792-804): list the repositories,
propagate a listing error, else return the ID of the first project with
the given name or a "no repository found" error. -/
def GitlabProvider.projectId (repos : Except String (List GitlabProject))
    (name : String) : Except String String :=
  match repos with
  | .error e => .error e
  | .ok rs =>
    match rs.find? (fun r => r.Name = name) with
    | some r => .ok (toString r.ID)
    | none => .error ("no repository found with name " ++ name)

/-- `GitlabProvider.ValidateRepositoryName` (part_002:848-854): returns
`nil` (available) whenever `projectId` errs — including when the listing
call itself failed. -/
def GitlabProvider.ValidateRepositoryName (repos : Except String (List GitlabProject))
    (name : String) : Option String :=
  match GitlabProvider.projectId repos name with
  | .ok pid => some ("repository " ++ pid ++ " already exists")
  | .error _ => none

/-- Whether `pat` starts the character list `s`. -/
def charsStartWith : List Char → List Char → Bool
  | [], _ => true
  | _ :: _, [] => false
  | p :: ps, c :: cs => p = c && charsStartWith ps cs

/-- Substring search on character lists. -/
def charsContains : List Char → List Char → Bool
  | [], pat => charsStartWith pat []
  | c :: cs, pat => charsStartWith pat (c :: cs) || charsContains cs pat

/-- `strings.Contains`: `s` contains `pat` as a substring. -/
def stringContains (s pat : String) : Bool := charsContains s.data pat.data

/-- `GiteaProvider.ValidateRepositoryName` (part_006:545-554).
`fetchResult` is the `GetRepo` error; a "404"-mentioning error message is
the confirmed not-found case. -/
def GiteaProvider.ValidateRepositoryName (org name : String)
    (fetchResult : Except String Unit) : Option String :=
  match fetchResult with
  | .ok _ => some ("Repository " ++ GitRepoName org name ++ " already exists")
  | .error e => if stringContains e "404" then none else some e

/- ### Commit-status normalisation (C9) -/

/-- `stateMap` (picker.go:57-62).  A Go map lookup of a missing key
yields the zero value `""`, hence the final branch. -/
def stateMap (s : String) : String :=
  if s = "SUCCESSFUL" then "success"
  else if s = "FAILED" then "failure"
  else if s = "INPROGRESS" then "in-progress"
  else if s = "STOPPED" then "stopped"
  else ""

/-- The links of a `bitbucket.Commitstatus` read by `ListCommitStatus`
(picker.go:650-656): `Links.Commit.Href` and `Links.Self.Href`. -/
structure CommitstatusLinks where
  Commit : HrefLink
  Self : HrefLink
  deriving Repr, DecidableEq

/-- Fields of `bitbucket.Commitstatus` read by the picker adapter;
`CreatedOn` (a `time.Time`) is modelled as an instant, with `After` =
strict `>`. -/
structure Commitstatus where
  State : String
  Key : String
  CreatedOn : Nat
  Links : CommitstatusLinks
  Description : String
  deriving Repr, DecidableEq

/-- The Go zero value of `bitbucket.Commitstatus`
(`latestCommitStatus := bitbucket.Commitstatus{}`, picker.go:583). -/
def Commitstatus.zero : Commitstatus :=
  { State := "", Key := "", CreatedOn := 0, Links := ⟨⟨""⟩, ⟨""⟩⟩, Description := "" }

/-- `bitbucket.PaginatedCommitstatuses` as consumed by the picker: its
`Size`, `Next` page token and `Values`. -/
structure PaginatedCommitstatuses where
  Size : Nat
  Next : String
  Values : List Commitstatus
  deriving Repr, DecidableEq

/-- `git.RepoStatus` fields set by `ListCommitStatus`
(`GitRepoStatus`, src/pkg/gits/provider.go:103-116). -/
structure GitRepoStatus where
  ID : String := ""
  Context : String := ""
  URL : String := ""
  State : String := ""
  TargetURL : String := ""
  Description : String := ""
  deriving Repr, DecidableEq

/-- Page loop of `CloudProvider.ListCommitStatus` (picker.go:623-666):
translate the current page's values, then follow `Next` until it is
empty.  `fetchNext` is the `CommitstatusesPageGet` oracle; `fuel` bounds
the unbounded Go `for` (a cyclic `Next` chain would not terminate in Go
either). -/
def listCommitStatusLoop (fetchNext : String → Except String PaginatedCommitstatuses)
    (fuel : Nat) (acc : List GitRepoStatus) (page : PaginatedCommitstatuses) :
    Except String (List GitRepoStatus) :=
  let acc := acc ++ page.Values.map (fun status =>
    { ID := status.Key
      URL := status.Links.Commit.Href
      State := stateMap status.State
      TargetURL := status.Links.Self.Href
      Description := status.Description })
  if page.Next = "" then .ok acc
  else
    match fuel with
    | 0 => .error "page chain exhausted fuel"
    | fuel' + 1 =>
      match fetchNext page.Next with
      | .error e => .error e
      | .ok p => listCommitStatusLoop fetchNext fuel' acc p

/-- `CloudProvider.ListCommitStatus` (picker.go:623-666).  `fetchFirst`
is the initial `RepositoriesUsernameRepoSlugCommitNodeStatusesGet` call
(taken because the zero `result` has `Next == ""`). -/
def CloudProvider.ListCommitStatus (fetchFirst : Except String PaginatedCommitstatuses)
    (fetchNext : String → Except String PaginatedCommitstatuses) (fuel : Nat) :
    Except String (List GitRepoStatus) :=
  match fetchFirst with
  | .error e => .error e
  | .ok page => listCommitStatusLoop fetchNext fuel [] page

/-- Page loop of `CloudProvider.PullRequestLastCommitStatus`
(picker.go:581-620): an empty page (`Size == 0`) short-circuits to
"success"; otherwise the newest status by `CreatedOn` (strictly-after
comparison against the running value, starting from the zero status) is
kept and its state translated at the end. -/
def pullRequestLastCommitStatusLoop
    (fetchNext : String → Except String PaginatedCommitstatuses)
    (fuel : Nat) (latestCommitStatus : Commitstatus) (page : PaginatedCommitstatuses) :
    Except String String :=
  -- Our first time building, so return "success"
  if page.Size = 0 then .ok "success"
  else
    let latestCommitStatus := page.Values.foldl
      (fun latest status => if status.CreatedOn > latest.CreatedOn then status else latest)
      latestCommitStatus
    if page.Next = "" then .ok (stateMap latestCommitStatus.State)
    else
      match fuel with
      | 0 => .error "page chain exhausted fuel"
      | fuel' + 1 =>
        match fetchNext page.Next with
        | .error e => .error e
        | .ok p => pullRequestLastCommitStatusLoop fetchNext fuel' latestCommitStatus p

/-- `CloudProvider.PullRequestLastCommitStatus` (picker.go:581-620). -/
def CloudProvider.PullRequestLastCommitStatus
    (fetchFirst : Except String PaginatedCommitstatuses)
    (fetchNext : String → Except String PaginatedCommitstatuses) (fuel : Nat) :
    Except String String :=
  match fetchFirst with
  | .error e => .error e
  | .ok page => pullRequestLastCommitStatusLoop fetchNext fuel Commitstatus.zero page

/- ### Helper lemmas -/

lemma getServer_url {c : AuthConfig} {url : String} {s : AuthServer}
    (h : c.GetServer url = some s) : s.URL = url := by
  have := List.find?_some h
  simpa using this

lemma mem_foldl_orgNames (x : String) (l : List GitOrganisation) (acc : List String)
    (h : x ∈ acc) :
    x ∈ l.foldl (fun acc o => if o.Login ≠ "" then acc ++ [o.Login] else acc) acc := by
  induction l generalizing acc with
  | nil => simpa using h
  | cons o l ih =>
    simp only [List.foldl_cons]
    by_cases ho : o.Login = ""
    · simp only [ho]
      exact ih acc (by simpa [ho] using h)
    · exact ih _ (by simp [ho, List.mem_append, h])

/-- C2: a `UserAuth` is classified invalid exactly when its BearerToken is
empty and at least one of Username or ApiToken is empty; equivalently it
is valid iff it has a non-empty BearerToken or both Username and ApiToken
non-empty, for every combination of field values. -/
theorem spec_c2_userauth_invalid_iff (a : UserAuth) :
    (a.IsInvalid = true ↔ a.BearerToken = "" ∧ (a.Username = "" ∨ a.ApiToken = "")) ∧
    (a.IsInvalid = false ↔ a.BearerToken ≠ "" ∨ (a.Username ≠ "" ∧ a.ApiToken ≠ "")) := by
  constructor
  · simp [UserAuth.IsInvalid]
    tauto
  · simp [UserAuth.IsInvalid]
    tauto

/-- C5: `FindUserAuth` with an empty username returns the server's single
credential when exactly one exists, and none when zero or more than one
exist; with a non-empty username it returns a stored credential with that
username exactly when one exists. -/
theorem spec_c5_find_user_auth (c : AuthConfig) (url username : String) :
    (∀ a, c.FindUserAuths url = [a] → c.FindUserAuth url "" = some a) ∧
    ((c.FindUserAuths url).length ≠ 1 → c.FindUserAuth url "" = none) ∧
    (username ≠ "" →
      (((c.FindUserAuth url username).isSome ↔
          ∃ a ∈ c.FindUserAuths url, a.Username = username) ∧
       (∀ a, c.FindUserAuth url username = some a →
          a ∈ c.FindUserAuths url ∧ a.Username = username))) := by
  refine ⟨?_, ?_, ?_⟩
  · intro a h
    simp [AuthConfig.FindUserAuth, h]
  · intro h
    simp only [AuthConfig.FindUserAuth, if_pos rfl]
    match hm : c.FindUserAuths url with
    | [] => rfl
    | [a] => exact absurd (by simp [hm]) h
    | a :: b :: t => rfl
  · intro h
    constructor
    · simp [AuthConfig.FindUserAuth, h, List.find?_isSome]
    · intro a ha
      simp only [AuthConfig.FindUserAuth, h, if_neg h] at ha
      exact ⟨List.mem_of_find?_eq_some ha, by simpa using List.find?_some ha⟩

/-- C10: `GetOrganizations` returns an ascending lexicographically sorted
list that always contains the username; the error from
`ListOrganisations` is discarded, and an empty (or failed, by Go
convention nil) listing yields exactly the one-element username list. -/
theorem spec_c10_get_organizations (orgs : List GitOrganisation)
    (errMsg : Option String) (userName : String) :
    List.Sorted (· ≤ ·) (GetOrganizations (orgs, errMsg) userName) ∧
    userName ∈ GetOrganizations (orgs, errMsg) userName ∧
    GetOrganizations (orgs, errMsg) userName = GetOrganizations (orgs, none) userName ∧
    GetOrganizations ([], errMsg) userName = [userName] := by
  refine ⟨List.sorted_insertionSort _ _, ?_, rfl, rfl⟩
  have hmem : userName ∈ (orgs.foldl
      (fun acc o => if o.Login ≠ "" then acc ++ [o.Login] else acc) [userName]) :=
    mem_foldl_orgNames userName orgs [userName] (by simp)
  exact ((List.perm_insertionSort (· ≤ ·) _).mem_iff).mpr hmem

/- ### Upsert lemmas for C4 -/

lemma upsertUser_length_of_mem {users : List UserAuth} {a : UserAuth}
    (h : a.Username ∈ users.map UserAuth.Username) :
    (upsertUser users a).length = users.length := by
  induction users with
  | nil => simp at h
  | cons u us ih =>
    by_cases hu : u.Username = a.Username
    · simp [upsertUser, hu]
    · have h' : a.Username ∈ us.map UserAuth.Username := by
        rcases (by simpa using h) with h | h
        · exact absurd h.symm hu
        · simpa using h
      simp [upsertUser, hu, ih h']

lemma upsertUser_of_not_mem {users : List UserAuth} {a : UserAuth}
    (h : a.Username ∉ users.map UserAuth.Username) :
    upsertUser users a = users ++ [a] := by
  induction users with
  | nil => simp [upsertUser]
  | cons u us ih =>
    have hu : u.Username ≠ a.Username := by
      intro hc
      exact h (by simp [hc])
    have h' : a.Username ∉ us.map UserAuth.Username := by
      intro hc
      exact h (by simp [hc])
    simp [upsertUser, hu, ih h']

lemma upsertUser_find (users : List UserAuth) (a : UserAuth) :
    (upsertUser users a).find? (fun x => x.Username = a.Username) = some a := by
  induction users with
  | nil => simp [upsertUser, List.find?]
  | cons u us ih =>
    by_cases hu : u.Username = a.Username
    · simp [upsertUser, hu, List.find?]
    · simp [upsertUser, hu, List.find?, ih]

lemma upsertUser_idem (users : List UserAuth) (a : UserAuth) :
    upsertUser (upsertUser users a) a = upsertUser users a := by
  induction users with
  | nil => simp [upsertUser]
  | cons u us ih =>
    by_cases hu : u.Username = a.Username
    · simp [upsertUser, hu]
    · simp [upsertUser, hu, ih]

lemma setUserAuthServers_find (ss : List AuthServer) (url : String) (a : UserAuth) :
    (setUserAuthServers ss url a).find? (fun s => s.URL = url) =
      some (match ss.find? (fun s => s.URL = url) with
            | some s => { s with Users := upsertUser s.Users a, CurrentUser := a.Username }
            | none =>
              { URL := url, Users := [a], Name := "", Kind := "", CurrentUser := a.Username }) := by
  induction ss with
  | nil => simp [setUserAuthServers, List.find?]
  | cons s ss ih =>
    by_cases hs : s.URL = url
    · simp [setUserAuthServers, hs, List.find?]
    · simp [setUserAuthServers, hs, List.find?, ih]

lemma setUserAuthServers_idem (ss : List AuthServer) (url : String) (a : UserAuth) :
    setUserAuthServers (setUserAuthServers ss url a) url a = setUserAuthServers ss url a := by
  induction ss with
  | nil => simp [setUserAuthServers, upsertUser]
  | cons s ss ih =>
    by_cases hs : s.URL = url
    · simp [setUserAuthServers, hs, upsertUser_idem]
    · simp [setUserAuthServers, hs, ih]

lemma findUserAuths_setUserAuth (c : AuthConfig) (url : String) (a : UserAuth) :
    (c.SetUserAuth url a).FindUserAuths url = upsertUser (c.FindUserAuths url) a := by
  simp only [AuthConfig.FindUserAuths, AuthConfig.SetUserAuth, setUserAuthServers_find]
  cases hf : c.Servers.find? (fun s => s.URL = url) <;> simp [hf, upsertUser]

/-- C4: `SetUserAuth` is an upsert keyed by (server URL, username): an
existing username's entry is overwritten in place (list length
preserved, the entry for that username becomes the new credential) and
`CurrentUser` is updated; a new username is appended; and repeating the
call with identical content changes nothing (so the list length is
stable). -/
theorem spec_c4_set_user_auth_upsert (c : AuthConfig) (url : String) (a : UserAuth) :
    ((c.SetUserAuth url a).FindUserAuths url = upsertUser (c.FindUserAuths url) a) ∧
    (a.Username ∈ (c.FindUserAuths url).map UserAuth.Username →
      ((c.SetUserAuth url a).FindUserAuths url).length = (c.FindUserAuths url).length) ∧
    (((c.SetUserAuth url a).FindUserAuths url).find? (fun x => x.Username = a.Username)
        = some a) ∧
    (a.Username ∉ (c.FindUserAuths url).map UserAuth.Username →
      (c.SetUserAuth url a).FindUserAuths url = c.FindUserAuths url ++ [a]) ∧
    (∃ s', (c.SetUserAuth url a).GetServer url = some s' ∧ s'.CurrentUser = a.Username) ∧
    ((c.SetUserAuth url a).SetUserAuth url a = c.SetUserAuth url a) := by
  refine ⟨findUserAuths_setUserAuth c url a, ?_, ?_, ?_, ?_, ?_⟩
  · intro h
    rw [findUserAuths_setUserAuth]
    exact upsertUser_length_of_mem h
  · rw [findUserAuths_setUserAuth]
    exact upsertUser_find _ a
  · intro h
    rw [findUserAuths_setUserAuth]
    exact upsertUser_of_not_mem h
  · have h := setUserAuthServers_find c.Servers url a
    cases hf : c.Servers.find? (fun s => s.URL = url) with
    | none =>
      simp only [hf] at h
      exact ⟨_, h, rfl⟩
    | some s =>
      simp only [hf] at h
      exact ⟨_, h, rfl⟩
  · simp [AuthConfig.SetUserAuth, setUserAuthServers_idem]

/-- Witness for C4 at a concrete store: one server with one user,
overwritten by a same-username credential. -/
theorem spec_c4_set_user_auth_upsert_witness :
    (let s0 : AuthServer :=
      { URL := "https://git.example", Users := [⟨"alice", "t1", ""⟩],
        Name := "", Kind := "", CurrentUser := "alice" }
     let c0 : AuthConfig := ⟨[s0], "", "", "", ""⟩
     let a : UserAuth := ⟨"alice", "t2", ""⟩
     ((c0.SetUserAuth "https://git.example" a).FindUserAuths "https://git.example").length
        = (c0.FindUserAuths "https://git.example").length) := by
  exact (spec_c4_set_user_auth_upsert _ "https://git.example" _).2.1 (by decide)

/- ### C3: pipeline identity on SaveUserAuth -/

lemma setUserAuth_pipeline_fields (c : AuthConfig) (url : String) (a : UserAuth) :
    (c.SetUserAuth url a).PipeLineUsername = c.PipeLineUsername ∧
    (c.SetUserAuth url a).PipeLineServer = c.PipeLineServer := by
  simp [AuthConfig.SetUserAuth]

lemma saveUserAuth_pipeline (c : AuthConfig) (url : String) (ua : UserAuth) :
    (SaveUserAuth c url ua).PipeLineUsername
        = (if c.PipeLineUsername = "" then ua.Username else c.PipeLineUsername) ∧
    (SaveUserAuth c url ua).PipeLineServer
        = (if c.PipeLineUsername = "" then url else c.PipeLineServer) := by
  by_cases h1 : ua.Username = "" <;> by_cases h2 : c.PipeLineUsername = "" <;>
    simp [SaveUserAuth, AuthConfig.SetUserAuth, h1, h2]

/-- C3 counterexample: the guard in `SaveUserAuth` tests only
`PipeLineUsername == ""`, so a first successful save whose credential has
an empty `Username` (a *valid* bearer-token credential) leaves
`PipeLineUsername` empty, and the second save to a different server
overwrites `PipeLineServer` — the pipeline fields do not keep the first
call's values. -/
theorem spec_c3_counterexample :
    (let c0 : AuthConfig := ⟨[], "", "", "", ""⟩
     let ua1 : UserAuth := ⟨"", "", "bearer-token-1"⟩
     let ua2 : UserAuth := ⟨"alice", "token-2", ""⟩
     let c2 := SaveUserAuth (SaveUserAuth c0 "https://one.example" ua1)
                 "https://two.example" ua2
     ua1.IsInvalid = false ∧
     (SaveUserAuth c0 "https://one.example" ua1).PipeLineServer = "https://one.example" ∧
     c2.PipeLineServer = "https://two.example" ∧
     c2.PipeLineUsername = "alice" ∧
     "https://two.example" ≠ "https://one.example") := by
  decide

/-- C3 (amended): once `PipeLineUsername` is non-empty the pipeline
fields are never overwritten by any later save; in particular, after two
successful saves in which the *first* credential has a non-empty
username, `PipeLineServer`/`PipeLineUsername` equal the first call's
values (first-writer-wins).  A first save with an empty username leaves
the fields claimable by the next save (see the counterexample). -/
theorem spec_c3_pipeline_first_writer (c : AuthConfig) (url1 url2 : String)
    (ua1 ua2 : UserAuth) :
    (c.PipeLineUsername ≠ "" →
      ((SaveUserAuth c url1 ua1).PipeLineUsername = c.PipeLineUsername ∧
       (SaveUserAuth c url1 ua1).PipeLineServer = c.PipeLineServer)) ∧
    (c.PipeLineUsername = "" → ua1.Username ≠ "" →
      ((SaveUserAuth (SaveUserAuth c url1 ua1) url2 ua2).PipeLineUsername = ua1.Username ∧
       (SaveUserAuth (SaveUserAuth c url1 ua1) url2 ua2).PipeLineServer = url1)) := by
  constructor
  · intro h
    have hp := saveUserAuth_pipeline c url1 ua1
    rw [if_neg h] at hp
    rw [if_neg h] at hp
    exact hp
  · intro h0 h1
    have hp1 := saveUserAuth_pipeline c url1 ua1
    rw [if_pos h0] at hp1
    rw [if_pos h0] at hp1
    have hne : (SaveUserAuth c url1 ua1).PipeLineUsername ≠ "" := by
      rw [hp1.1]; exact h1
    have hp2 := saveUserAuth_pipeline (SaveUserAuth c url1 ua1) url2 ua2
    rw [if_neg hne] at hp2
    rw [if_neg hne] at hp2
    exact ⟨hp2.1.trans hp1.1, hp2.2.trans hp1.2⟩

/-- Witness for C3 (amended) at concrete saves. -/
theorem spec_c3_pipeline_first_writer_witness :
    (let c0 : AuthConfig := ⟨[], "", "", "", ""⟩
     let ua1 : UserAuth := ⟨"bob", "token-1", ""⟩
     let ua2 : UserAuth := ⟨"alice", "token-2", ""⟩
     (SaveUserAuth (SaveUserAuth c0 "https://one.example" ua1)
        "https://two.example" ua2).PipeLineUsername = "bob" ∧
     (SaveUserAuth (SaveUserAuth c0 "https://one.example" ua1)
        "https://two.example" ua2).PipeLineServer = "https://one.example") := by
  exact (spec_c3_pipeline_first_writer ⟨[], "", "", "", ""⟩ "https://one.example"
    "https://two.example" ⟨"bob", "token-1", ""⟩ ⟨"alice", "token-2", ""⟩).2 rfl (by decide)

/- ### C8: Kind stickiness -/

lemma find?_append_of_none {α : Type} {p : α → Bool} {l : List α}
    (h : l.find? p = none) (l₂ : List α) : (l ++ l₂).find? p = l₂.find? p := by
  induction l with
  | nil => rfl
  | cons a t ih =>
    cases hp : p a with
    | true => simp [List.find?, hp] at h
    | false =>
      have h' : t.find? p = none := by
        rw [List.find?] at h
        simpa [hp] using h
      simp [List.find?, hp, ih h']

lemma getOrCreateServerName_snd_of_found {c : AuthConfig} {url : String} {s : AuthServer}
    (h : c.GetServer url = some s) (name kind : String) :
    c.GetOrCreateServerName url name kind = (s, c) := by
  simp [AuthConfig.GetOrCreateServerName, h]

lemma createProviderForURL_snd (c : AuthConfig) (env : String → String)
    (gitKind hostUrl : String) :
    (CreateProviderForURL c env gitKind hostUrl).2 = (c.GetOrCreateServer hostUrl).2 := by
  simp only [CreateProviderForURL]
  cases hf : ((c.GetOrCreateServer hostUrl).2).FindUserAuths (c.GetOrCreateServer hostUrl).1.URL with
  | nil =>
    simp only [hf]
    split <;> split <;> (try split) <;> rfl
  | cons a t => simp [hf]

/-- C8 counterexample: a server stored with empty Kind; resolving it with
the explicit kind "gitea" (as `CreateProviderForURL` does via
`server.Kind = gitKind`) leaves the stored record's Kind empty, so the
subsequent lookup observes `""`, not the previously supplied "gitea". -/
theorem spec_c8_counterexample :
    (let s0 : AuthServer := ⟨"https://gitea.example", [], "", "", ""⟩
     let c0 : AuthConfig := ⟨[s0], "", "", "", ""⟩
     let c1 := (CreateProviderForURL c0 (fun _ => "") "gitea" "https://gitea.example").2
     (c1.GetServer "https://gitea.example").map AuthServer.Kind = some "" ∧
     (some "" : Option String) ≠ some "gitea") := by
  constructor
  · rfl
  · decide

/-- C8 (amended): a Kind supplied when the server record is first created
(`GetOrCreateServerName` on a missing URL) is recorded and observed by
every later lookup; but an explicit kind supplied at resolution time for
an already-stored server is applied only to the copy handed back by
`GetServer`/`GetOrCreateServer` and is never written back, so the
resolution leaves the stored config — in particular the stored Kind —
unchanged. -/
theorem spec_c8_kind_sticky_only_at_creation (c : AuthConfig)
    (url name kind : String) (env : String → String) (gitKind : String) :
    (c.GetServer url = none →
      (((c.GetOrCreateServerName url name kind).2).GetServer url).map AuthServer.Kind
        = some kind) ∧
    (∀ s, c.GetServer url = some s →
      (CreateProviderForURL c env gitKind url).2 = c ∧
      (((CreateProviderForURL c env gitKind url).2).GetServer url).map AuthServer.Kind
        = some s.Kind) := by
  constructor
  · intro h
    have hfind : c.Servers.find? (fun s => s.URL = url) = none := h
    simp only [AuthConfig.GetOrCreateServerName, AuthConfig.GetServer, hfind]
    rw [find?_append_of_none hfind]
    simp
  · intro s hs
    have h2 : (CreateProviderForURL c env gitKind url).2 = c := by
      rw [createProviderForURL_snd]
      simp [AuthConfig.GetOrCreateServer, getOrCreateServerName_snd_of_found hs]
    refine ⟨h2, ?_⟩
    rw [h2, hs]
    rfl

/-- Witness for C8 (amended): creating a server with kind "gitea" records
it; resolving an existing empty-kind server leaves the store unchanged. -/
theorem spec_c8_kind_sticky_only_at_creation_witness :
    (let c0 : AuthConfig := ⟨[], "", "", "", ""⟩
     (((c0.GetOrCreateServerName "https://gitea.example" "" "gitea").2).GetServer
        "https://gitea.example").map AuthServer.Kind = some "gitea") ∧
    (let s0 : AuthServer := ⟨"https://x.example", [], "", "", ""⟩
     let c1 : AuthConfig := ⟨[s0], "", "", "", ""⟩
     (CreateProviderForURL c1 (fun _ => "") "gitea" "https://x.example").2 = c1) := by
  constructor
  · exact (spec_c8_kind_sticky_only_at_creation ⟨[], "", "", "", ""⟩
      "https://gitea.example" "" "gitea" (fun _ => "") "gitea").1 rfl
  · exact ((spec_c8_kind_sticky_only_at_creation ⟨[⟨"https://x.example", [], "", "", ""⟩], "", "", "", ""⟩
      "https://x.example" "" "" (fun _ => "") "gitea").2 ⟨"https://x.example", [], "", "", ""⟩ rfl).1

/- ### C6: environment credentials on empty store -/

lemma getOrCreateServerName_fst_url (c : AuthConfig) (url name kind : String) :
    ((c.GetOrCreateServerName url name kind).1).URL = url := by
  cases h : c.GetServer url with
  | some s => simp [AuthConfig.GetOrCreateServerName, h, getServer_url h]
  | none => simp [AuthConfig.GetOrCreateServerName, h]

lemma getOrCreateServer_preserves_no_auths {c : AuthConfig} {url : String}
    (h : c.FindUserAuths url = []) :
    ((c.GetOrCreateServer url).2).FindUserAuths url = [] := by
  cases hg : c.GetServer url with
  | some s =>
    simpa [AuthConfig.GetOrCreateServer, AuthConfig.GetOrCreateServerName, hg] using h
  | none =>
    have hfind : c.Servers.find? (fun s => s.URL = url) = none := hg
    simp [AuthConfig.GetOrCreateServer, AuthConfig.GetOrCreateServerName, hg,
      AuthConfig.FindUserAuths, find?_append_of_none hfind, List.find?]

lemma createProviderForURL_no_stored (c : AuthConfig) (env : String → String)
    (gitKind hostUrl : String) (h : c.FindUserAuths hostUrl = []) :
    CreateProviderForURL c env gitKind hostUrl =
      (let server := if gitKind ≠ "" then
          { (c.GetOrCreateServer hostUrl).1 with Kind := gitKind }
        else (c.GetOrCreateServer hostUrl).1
       let uaKind := CreateAuthUserFromEnvironment env (stringToUpper server.Kind)
       let uaGit := CreateAuthUserFromEnvironment env "GIT"
       ((if server.Kind ≠ "" then
           (if uaKind.IsInvalid = false then ProviderResolution.fromEnvKind server uaKind
            else if uaGit.IsInvalid = false then ProviderResolution.fromEnvGit server uaGit
            else ProviderResolution.interactivePrompt server)
         else if uaGit.IsInvalid = false then ProviderResolution.fromEnvGit server uaGit
         else ProviderResolution.interactivePrompt server),
        (c.GetOrCreateServer hostUrl).2)) := by
  have hu : ((c.GetOrCreateServer hostUrl).1).URL = hostUrl :=
    getOrCreateServerName_fst_url c hostUrl _ _
  have hf : ((c.GetOrCreateServer hostUrl).2).FindUserAuths
      ((c.GetOrCreateServer hostUrl).1).URL = [] := by
    rw [hu]
    exact getOrCreateServer_preserves_no_auths h
  simp only [CreateProviderForURL, hf]
  split_ifs <;> simp_all

/-- C6: when the host has zero stored credentials, the resolver builds
the credential from environment variables keyed by the upper-cased
effective Kind first, then from the generic GIT-prefixed keys, uses an
environment credential (instead of falling through to the interactive
`createUserForServer` path) exactly when it passes the validity check,
and never uses an invalid environment credential.  `server` is the local
server value of `CreateProviderForURL` (stored record plus the explicit
kind override). -/
theorem spec_c6_env_credential_precedence (c : AuthConfig) (env : String → String)
    (gitKind hostUrl : String) (server : AuthServer)
    (h : c.FindUserAuths hostUrl = [])
    (hserver : server =
      (if gitKind ≠ "" then { (c.GetOrCreateServer hostUrl).1 with Kind := gitKind }
       else (c.GetOrCreateServer hostUrl).1)) :
    (∀ s ua, ((CreateProviderForURL c env gitKind hostUrl).1 = .fromEnvKind s ua ∨
              (CreateProviderForURL c env gitKind hostUrl).1 = .fromEnvGit s ua) →
       ua.IsInvalid = false) ∧
    (server.Kind ≠ "" →
      (CreateAuthUserFromEnvironment env (stringToUpper server.Kind)).IsInvalid = false →
      (CreateProviderForURL c env gitKind hostUrl).1 =
        .fromEnvKind server (CreateAuthUserFromEnvironment env (stringToUpper server.Kind))) ∧
    ((server.Kind = "" ∨
        (CreateAuthUserFromEnvironment env (stringToUpper server.Kind)).IsInvalid = true) →
      (CreateAuthUserFromEnvironment env "GIT").IsInvalid = false →
      (CreateProviderForURL c env gitKind hostUrl).1 =
        .fromEnvGit server (CreateAuthUserFromEnvironment env "GIT")) ∧
    ((server.Kind = "" ∨
        (CreateAuthUserFromEnvironment env (stringToUpper server.Kind)).IsInvalid = true) →
      (CreateAuthUserFromEnvironment env "GIT").IsInvalid = true →
      (CreateProviderForURL c env gitKind hostUrl).1 = .interactivePrompt server) := by
  rw [createProviderForURL_no_stored c env gitKind hostUrl h]
  rw [← hserver]
  refine ⟨?_, ?_, ?_, ?_⟩
  · intro s ua hcase
    by_cases hk : server.Kind ≠ "" <;>
      by_cases hvK : (CreateAuthUserFromEnvironment env (stringToUpper server.Kind)).IsInvalid = false <;>
      by_cases hvG : (CreateAuthUserFromEnvironment env "GIT").IsInvalid = false <;>
      simp_all <;> rcases hcase with hcase | hcase <;> simp_all
  · intro hk hv
    simp [hk, hv]
  · intro hor hg
    rcases hor with hk | hv
    · simp [hk, hg]
    · by_cases hk : server.Kind ≠ "" <;> simp_all
  · intro hor hg
    rcases hor with hk | hv
    · simp [hk, hg]
    · by_cases hk : server.Kind ≠ "" <;> simp_all

/-- Witness for C6: empty store, a valid `GITEA_*` environment, explicit
kind "gitea". -/
theorem spec_c6_env_credential_precedence_witness :
    (let c0 : AuthConfig := ⟨[], "", "", "", ""⟩
     let env : String → String := fun k =>
       if k = "GITEA_USERNAME" then "erin" else
       if k = "GITEA_API_TOKEN" then "tok" else ""
     let server : AuthServer := ⟨"https://gitea.example", [], "", "gitea", ""⟩
     (CreateProviderForURL c0 env "gitea" "https://gitea.example").1 =
       .fromEnvKind server (CreateAuthUserFromEnvironment env "GITEA")) := by
  exact (spec_c6_env_credential_precedence ⟨[], "", "", "", ""⟩
    (fun k => if k = "GITEA_USERNAME" then "erin" else
      if k = "GITEA_API_TOKEN" then "tok" else "")
    "gitea" "https://gitea.example" ⟨"https://gitea.example", [], "", "gitea", ""⟩
    rfl (by decide)).2.1 (by decide) (by decide)

/- ### C1: retry behaviour -/

lemma cloudRetryLoop_all_fail (reads : Nat → Bool) (h : ∀ k, reads k = false) :
    ∀ fuel next, cloudRetryLoop reads next fuel = (false, ⟨fuel, fuel⟩) := by
  intro fuel
  induction fuel with
  | zero => intro next; rfl
  | succ n ih =>
    intro next
    simp [cloudRetryLoop, h next, ih (next + 1)]

lemma serverRetryLoop_all_fail {α : Type} (reads : Nat → Except String α)
    (errF : Nat → String) (h : ∀ k, reads k = .error (errF k)) :
    ∀ fuel next, serverRetryLoop reads next (fuel + 1) =
      (.error (errF (next + fuel)), ⟨fuel + 1, fuel + 1⟩) := by
  intro fuel
  induction fuel with
  | zero => intro next; simp [serverRetryLoop, h next]
  | succ n ih =>
    intro next
    have hadd : next + 1 + n = next + (n + 1) := by omega
    simp [serverRetryLoop, h next, ih (next + 1), hadd]

/-- C1 counterexample: the Bitbucket Server fork adapter with a read-back
that never succeeds returns the *final read error* after its 30 attempts
— not the original create result (whose response body the source
discards entirely), contradicting the claimed policy for this adapter. -/
theorem spec_c1_counterexample :
    BitbucketServerProvider.ForkRepository (.ok ())
      (fun _ => .error "repository not ready") =
      (.error "repository not ready", ⟨30, 30⟩) := by
  rfl

/-- C1 (amended): all the fork/create-PR adapters retry the read-back up
to 30 times at the fixed 2-second interval, and the mutating call is
issued once (it is a single input of each embedded adapter).  On
exhaustion they differ: the Bitbucket Cloud fork returns the original
create result untouched (its result never depends on the read-backs,
which cost one probe plus up to 30 retried reads and 30 sleeps), while
the Bitbucket Server fork and create-pull-request return the final read
error. -/
theorem spec_c1_eventual_consistency_retry :
    (∀ (repo : BitbucketCloudRepository) (reads : Nat → Bool),
        (CloudProvider.ForkRepository (.ok repo) reads).1 =
          .ok (BitbucketRepositoryToGitRepository repo)) ∧
    (∀ (repo : BitbucketCloudRepository) (reads : Nat → Bool),
        (∀ k, reads k = false) →
        CloudProvider.ForkRepository (.ok repo) reads =
          (.ok (BitbucketRepositoryToGitRepository repo), ⟨31, 30⟩)) ∧
    (∀ (reads : Nat → Except String BitbucketServerRepository) (errF : Nat → String),
        (∀ k, reads k = Except.error (errF k)) →
        BitbucketServerProvider.ForkRepository (.ok ()) reads =
          (.error (errF 29), ⟨30, 30⟩)) ∧
    (∀ (bpr : BitbucketServerPullRequest)
        (reads : Nat → Except String BitbucketServerPullRequest) (errF : Nat → String),
        (∀ k, reads k = Except.error (errF k)) →
        BitbucketServerProvider.CreatePullRequest (.ok bpr) reads =
          (.error (errF 29), ⟨30, 30⟩)) := by
  refine ⟨?_, ?_, ?_, ?_⟩
  · intro repo reads
    rfl
  · intro repo reads h
    have h30 : cloudRetryLoop reads 1 30 = (false, ⟨30, 30⟩) :=
      cloudRetryLoop_all_fail reads h 30 1
    simp [CloudProvider.ForkRepository, h 0, h30]
  · intro reads errF h
    have h30 : serverRetryLoop reads 0 30 = (.error (errF 29), ⟨30, 30⟩) := by
      simpa using serverRetryLoop_all_fail reads errF h 29 0
    simp only [BitbucketServerProvider.ForkRepository]
    rw [h30]
  · intro bpr reads errF h
    have h30 : serverRetryLoop reads 0 30 = (.error (errF 29), ⟨30, 30⟩) := by
      simpa using serverRetryLoop_all_fail reads errF h 29 0
    simp only [BitbucketServerProvider.CreatePullRequest]
    rw [h30]

/-- Witness for C1 (amended) with concrete always-failing read oracles. -/
theorem spec_c1_eventual_consistency_retry_witness :
    (let repo0 : BitbucketCloudRepository := ⟨"widgets", ⟨[], ⟨""⟩⟩, none, "Go"⟩
     CloudProvider.ForkRepository (.ok repo0) (fun _ => false) =
       (.ok (BitbucketRepositoryToGitRepository repo0), ⟨31, 30⟩)) ∧
    (BitbucketServerProvider.ForkRepository (.ok ())
        (fun _ => .error "still forking") = (.error "still forking", ⟨30, 30⟩)) ∧
    (BitbucketServerProvider.CreatePullRequest (.ok ⟨7, "OPEN", [], "bob", "widgets"⟩)
        (fun _ => .error "not yet visible") = (.error "not yet visible", ⟨30, 30⟩)) := by
  refine ⟨?_, ?_, ?_⟩
  · exact spec_c1_eventual_consistency_retry.2.1 _ (fun _ => false) (fun _ => rfl)
  · exact spec_c1_eventual_consistency_retry.2.2.1 (fun _ => .error "still forking")
      (fun _ => "still forking") (fun _ => rfl)
  · exact spec_c1_eventual_consistency_retry.2.2.2 ⟨7, "OPEN", [], "bob", "widgets"⟩
      (fun _ => .error "not yet visible") (fun _ => "not yet visible") (fun _ => rfl)

/- ### C7: repository-name validation -/

/-- C7 counterexample: the GitLab adapter reports the name *available*
(`nil` error) whenever `projectId` fails — including when the repository
listing itself failed with an ambiguous vendor error — instead of
propagating that error; so "propagates any other vendor error unchanged"
fails for this backend. -/
theorem spec_c7_counterexample :
    GitlabProvider.ValidateRepositoryName (.error "500 internal server error") "widgets"
        = none ∧
    GitlabProvider.ValidateRepositoryName (.error "500 internal server error") "widgets"
        ≠ some "500 internal server error" := by
  exact ⟨rfl, by decide⟩

/-- C7 (amended): the GitHub and Gitea adapters return success only on a
confirmed 404-equivalent (status 404, resp. a "404"-mentioning error),
return an "already exists" error on any successful fetch, and pass any
other vendor error through unchanged; the GitLab adapter returns
"already exists" on a successful lookup but reports the name available
on *every* `projectId` error, masking ambiguous listing errors as
success. -/
theorem spec_c7_validate_repository_name (org name e : String) (code : Nat)
    (repos : Except String (List GitlabProject)) :
    (GitHubProvider.ValidateRepositoryName org name (.ok ()) code =
        some ("Repository " ++ GitRepoName org name ++ " already exists")) ∧
    (GitHubProvider.ValidateRepositoryName org name (.error e) 404 = none) ∧
    (code ≠ 404 → GitHubProvider.ValidateRepositoryName org name (.error e) code = some e) ∧
    (GiteaProvider.ValidateRepositoryName org name (.ok ()) =
        some ("Repository " ++ GitRepoName org name ++ " already exists")) ∧
    (stringContains e "404" = true →
        GiteaProvider.ValidateRepositoryName org name (.error e) = none) ∧
    (stringContains e "404" = false →
        GiteaProvider.ValidateRepositoryName org name (.error e) = some e) ∧
    (GitlabProvider.ValidateRepositoryName (.error e) name = none) ∧
    (∀ rs, repos = .ok rs → rs.find? (fun r => r.Name = name) = none →
        GitlabProvider.ValidateRepositoryName repos name = none) ∧
    (∀ rs r, repos = .ok rs → rs.find? (fun r => r.Name = name) = some r →
        GitlabProvider.ValidateRepositoryName repos name =
          some ("repository " ++ toString r.ID ++ " already exists")) := by
  refine ⟨rfl, by simp [GitHubProvider.ValidateRepositoryName], ?_, rfl, ?_, ?_, rfl, ?_, ?_⟩
  · intro hc
    simp [GitHubProvider.ValidateRepositoryName, hc]
  · intro hc
    simp [GiteaProvider.ValidateRepositoryName, hc]
  · intro hc
    simp [GiteaProvider.ValidateRepositoryName, hc]
  · intro rs hr hf
    simp [GitlabProvider.ValidateRepositoryName, GitlabProvider.projectId, hr, hf]
  · intro rs r hr hf
    simp [GitlabProvider.ValidateRepositoryName, GitlabProvider.projectId, hr, hf]

/-- Witness for C7 (amended) at concrete inputs. -/
theorem spec_c7_validate_repository_name_witness :
    (GitHubProvider.ValidateRepositoryName "acme" "widgets"
        (.error "vendor outage") 500 = some "vendor outage") ∧
    (GiteaProvider.ValidateRepositoryName "acme" "widgets"
        (.error "404 not found") = none) ∧
    (GitlabProvider.ValidateRepositoryName (.ok [⟨"widgets", 42⟩]) "widgets" =
        some "repository 42 already exists") := by
  refine ⟨?_, ?_, ?_⟩
  · exact (spec_c7_validate_repository_name "acme" "widgets" "vendor outage" 500
      (.ok [])).2.2.1 (by decide)
  · exact (spec_c7_validate_repository_name "acme" "widgets" "404 not found" 0
      (.ok [])).2.2.2.2.1 (by decide)
  · exact (spec_c7_validate_repository_name "acme" "widgets" "" 0
      (.ok [⟨"widgets", 42⟩])).2.2.2.2.2.2.2.2 [⟨"widgets", 42⟩] ⟨"widgets", 42⟩ rfl
      (by decide)

/- ### C9: commit-status state normalisation -/

lemma stateMap_mem (v : String) :
    stateMap v ∈ ["success", "failure", "in-progress", "stopped", ""] := by
  unfold stateMap
  split_ifs <;> simp

lemma listCommitStatusLoop_states (fetchNext : String → Except String PaginatedCommitstatuses) :
    ∀ (fuel : Nat) (acc : List GitRepoStatus) (page : PaginatedCommitstatuses)
      (statuses : List GitRepoStatus),
      (∀ st ∈ acc, st.State ∈ ["success", "failure", "in-progress", "stopped", ""]) →
      listCommitStatusLoop fetchNext fuel acc page = .ok statuses →
      ∀ st ∈ statuses, st.State ∈ ["success", "failure", "in-progress", "stopped", ""] := by
  have happend : ∀ (acc : List GitRepoStatus) (page : PaginatedCommitstatuses),
      (∀ st ∈ acc, st.State ∈ ["success", "failure", "in-progress", "stopped", ""]) →
      ∀ st ∈ acc ++ page.Values.map (fun status =>
          ({ ID := status.Key, URL := status.Links.Commit.Href,
             State := stateMap status.State, TargetURL := status.Links.Self.Href,
             Description := status.Description } : GitRepoStatus)),
        st.State ∈ ["success", "failure", "in-progress", "stopped", ""] := by
    intro acc page hacc st hst
    rcases List.mem_append.mp hst with hmem | hmem
    · exact hacc st hmem
    · obtain ⟨cs, _, rfl⟩ := List.mem_map.mp hmem
      exact stateMap_mem cs.State
  intro fuel
  induction fuel with
  | zero =>
    intro acc page statuses hacc heq
    by_cases hn : page.Next = ""
    · simp only [listCommitStatusLoop, hn, if_true, Except.ok.injEq] at heq
      subst heq
      exact happend acc page hacc
    · simp [listCommitStatusLoop, hn] at heq
  | succ n ih =>
    intro acc page statuses hacc heq
    by_cases hn : page.Next = ""
    · simp only [listCommitStatusLoop, hn, if_true, Except.ok.injEq] at heq
      subst heq
      exact happend acc page hacc
    · cases hfetch : fetchNext page.Next with
      | error e => simp [listCommitStatusLoop, hn, hfetch] at heq
      | ok p =>
        simp only [listCommitStatusLoop, hn, if_neg hn, hfetch] at heq
        exact ih _ p statuses (happend acc page hacc) heq

lemma pullRequestLastCommitStatusLoop_eq
    (fetchNext : String → Except String PaginatedCommitstatuses) (fuel : Nat)
    (latest : Commitstatus) (page : PaginatedCommitstatuses) :
    pullRequestLastCommitStatusLoop fetchNext fuel latest page =
      (if page.Size = 0 then .ok "success"
       else if page.Next = "" then
         .ok (stateMap (page.Values.foldl
           (fun l status => if status.CreatedOn > l.CreatedOn then status else l)
           latest).State)
       else
         match fuel with
         | 0 => .error "page chain exhausted fuel"
         | fuel' + 1 =>
           match fetchNext page.Next with
           | .error e => .error e
           | .ok p =>
             pullRequestLastCommitStatusLoop fetchNext fuel' (page.Values.foldl
               (fun l status => if status.CreatedOn > l.CreatedOn then status else l)
               latest) p) := by
  cases fuel with
  | zero => rfl
  | succ n => rfl

lemma pullRequestLastCommitStatusLoop_states
    (fetchNext : String → Except String PaginatedCommitstatuses) :
    ∀ (fuel : Nat) (latest : Commitstatus) (page : PaginatedCommitstatuses) (s : String),
      pullRequestLastCommitStatusLoop fetchNext fuel latest page = .ok s →
      s ∈ ["success", "failure", "in-progress", "stopped", ""] := by
  intro fuel
  induction fuel with
  | zero =>
    intro latest page s heq
    rw [pullRequestLastCommitStatusLoop_eq] at heq
    by_cases hz : page.Size = 0
    · rw [if_pos hz, Except.ok.injEq] at heq
      subst heq
      simp
    · rw [if_neg hz] at heq
      by_cases hn : page.Next = ""
      · rw [if_pos hn, Except.ok.injEq] at heq
        subst heq
        exact stateMap_mem _
      · rw [if_neg hn] at heq
        simp at heq
  | succ n ih =>
    intro latest page s heq
    rw [pullRequestLastCommitStatusLoop_eq] at heq
    by_cases hz : page.Size = 0
    · rw [if_pos hz, Except.ok.injEq] at heq
      subst heq
      simp
    · rw [if_neg hz] at heq
      by_cases hn : page.Next = ""
      · rw [if_pos hn, Except.ok.injEq] at heq
        subst heq
        exact stateMap_mem _
      · rw [if_neg hn] at heq
        cases hfetch : fetchNext page.Next with
        | error e => simp [hfetch] at heq
        | ok p =>
          rw [hfetch] at heq
          exact ih _ p s heq

/-- C9 counterexample: a vendor state outside the translation table
("PENDING") is looked up in the Go map and yields the zero value `""`,
so `ListCommitStatus` emits a canonical status whose `State` is the
empty string — not one of the six claimed normalized values (and
"pending"/"error" are never produced by this backend's table at all). -/
theorem spec_c9_counterexample :
    CloudProvider.ListCommitStatus
        (.ok { Size := 1, Next := "",
               Values := [{ State := "PENDING", Key := "ci", CreatedOn := 5,
                            Links := ⟨⟨"hc"⟩, ⟨"hs"⟩⟩, Description := "d" }] })
        (fun _ => .error "no page") 0 =
      .ok [{ ID := "ci", URL := "hc", State := "", TargetURL := "hs",
             Description := "d" }] ∧
    ("" : String) ∉ ["pending", "success", "error", "failure", "in-progress", "stopped"] := by
  exact ⟨rfl, by decide⟩

/-- C9 (amended): every state produced by the Bitbucket Cloud picker
adapter's `ListCommitStatus` or `PullRequestLastCommitStatus` is
`stateMap` of a vendor state (or the hard-coded "success" for an empty
status page), and the range of `stateMap` is
{success, failure, in-progress, stopped, ""}: vendor states in the
translation table land in the claimed six-value set, every other vendor
state yields the empty string, which lies outside it. -/
theorem spec_c9_normalized_states :
    (∀ v, stateMap v ∈ ["success", "failure", "in-progress", "stopped", ""]) ∧
    (∀ (fetchFirst : Except String PaginatedCommitstatuses)
       (fetchNext : String → Except String PaginatedCommitstatuses)
       (fuel : Nat) (statuses : List GitRepoStatus),
       CloudProvider.ListCommitStatus fetchFirst fetchNext fuel = .ok statuses →
       ∀ st ∈ statuses,
         st.State ∈ ["success", "failure", "in-progress", "stopped", ""]) ∧
    (∀ (fetchFirst : Except String PaginatedCommitstatuses)
       (fetchNext : String → Except String PaginatedCommitstatuses)
       (fuel : Nat) (s : String),
       CloudProvider.PullRequestLastCommitStatus fetchFirst fetchNext fuel = .ok s →
       s ∈ ["success", "failure", "in-progress", "stopped", ""]) := by
  refine ⟨stateMap_mem, ?_, ?_⟩
  · intro ff fn fuel statuses heq
    cases hf : ff with
    | error e => simp [CloudProvider.ListCommitStatus, hf] at heq
    | ok page =>
      simp only [CloudProvider.ListCommitStatus, hf] at heq
      exact listCommitStatusLoop_states fn fuel [] page statuses (by simp) heq
  · intro ff fn fuel s heq
    cases hf : ff with
    | error e => simp [CloudProvider.PullRequestLastCommitStatus, hf] at heq
    | ok page =>
      simp only [CloudProvider.PullRequestLastCommitStatus, hf] at heq
      exact pullRequestLastCommitStatusLoop_states fn fuel Commitstatus.zero page s heq

/-- Witness for C9 (amended) at a concrete single-page backend. -/
theorem spec_c9_normalized_states_witness :
    CloudProvider.PullRequestLastCommitStatus
        (.ok { Size := 1, Next := "",
               Values := [{ State := "SUCCESSFUL", Key := "ci", CreatedOn := 5,
                            Links := ⟨⟨"hc"⟩, ⟨"hs"⟩⟩, Description := "d" }] })
        (fun _ => .error "no page") 0 = .ok "success" ∧
    ("success" : String) ∈ ["success", "failure", "in-progress", "stopped", ""] := by
  refine ⟨rfl, ?_⟩
  exact spec_c9_normalized_states.2.2
    (.ok { Size := 1, Next := "",
           Values := [{ State := "SUCCESSFUL", Key := "ci", CreatedOn := 5,
                        Links := ⟨⟨"hc"⟩, ⟨"hs"⟩⟩, Description := "d" }] })
    (fun _ => .error "no page") 0 "success" rfl

/-- Witness for C5 at a concrete store with one server and two users. -/
theorem spec_c5_find_user_auth_witness :
    (let s0 : AuthServer :=
      { URL := "https://git.example",
        Users := [⟨"alice", "t1", ""⟩, ⟨"bob", "t2", ""⟩],
        Name := "", Kind := "", CurrentUser := "alice" }
     let c0 : AuthConfig := ⟨[s0], "", "", "", ""⟩
     c0.FindUserAuth "https://git.example" "" = none ∧
     (c0.FindUserAuth "https://git.example" "bob" = some ⟨"bob", "t2", ""⟩ →
       (⟨"bob", "t2", ""⟩ : UserAuth) ∈ c0.FindUserAuths "https://git.example")) := by
  constructor
  · exact (spec_c5_find_user_auth ⟨[⟨"https://git.example",
      [⟨"alice", "t1", ""⟩, ⟨"bob", "t2", ""⟩], "", "", "alice"⟩], "", "", "", ""⟩
      "https://git.example" "").2.1 (by decide)
  · intro hfound
    exact (((spec_c5_find_user_auth ⟨[⟨"https://git.example",
      [⟨"alice", "t1", ""⟩, ⟨"bob", "t2", ""⟩], "", "", "alice"⟩], "", "", "", ""⟩
      "https://git.example" "bob").2.2 (by decide)).2 ⟨"bob", "t2", ""⟩ hfound).1
